import Mathlib

/-
Verification of tune-in-claude (a CLI wrapper that synchronizes Spotify
playback with a Claude Code session).

The development shallowly embeds the relevant parts of the TypeScript
source:

* `src/claude-wrapper.ts` — the hook-configuration install/restore pipeline
  (`readSettings`, `writeSettings`, `injectHooks`, `restoreHooks`), the
  guarded hook command strings (`spotifyPlayCmd`, `spotifyPauseCmd`), the
  keystroke-driven activity engine (the `process.stdin.on('data')` handler,
  `scheduleTypingPause`, the idle timer), and the `cleanup` routine with its
  two exit paths (`claude.onExit`, the SIGINT handler).
* `src/spotify.ts` — the token-refresh logic (`getValidAccessToken`,
  `refreshAccessToken`).
* `src/spotify-native.ts` — `getCurrentTrack`.

Machine-level JSON is modelled by an inductive `Json` value type restricted
to the shapes this repository reads and writes (no floating-point numbers,
no \u string escapes); `JSON.stringify(v, null, 2)` and `JSON.parse` are
modelled by `stringify2` and `jparse` below.  File contents are `Option
String` (`none` = the file does not exist).  Asynchronous playback calls are
modelled as emitted `Signal` values; wall-clock time is an explicit `Nat`
millisecond timestamp.
-/

/-- JSON values, restricted to the shapes tune-in-claude stores: `null`,
booleans, integers, strings, arrays and objects (assoc lists in insertion
order, duplicate-free as produced by `JSON.parse`). -/
inductive Json where
  | null : Json
  | bool : Bool → Json
  | num : Int → Json
  | str : String → Json
  | arr : List Json → Json
  | obj : List (String × Json) → Json
deriving Repr

/-- Insert a key into an assoc list with JavaScript object-assignment
semantics: an existing key keeps its position and receives the new value, a
new key is appended at the end. -/
def insertKV (kvs : List (String × Json)) (k : String) (v : Json) : List (String × Json) :=
  match kvs with
  | [] => [(k, v)]
  | (k', v') :: rest =>
      if k' = k then (k', v) :: rest else (k', v') :: insertKV rest k v

/-- A run of `n` spaces, used for `JSON.stringify`'s 2-space indentation. -/
def indentStr (n : Nat) : String := String.mk (List.replicate n ' ')

/-- Escape one character the way `JSON.stringify` escapes string contents
(the control characters beyond these do not occur in the repository's
data). -/
def jsonEscapeChar (c : Char) : String :=
  if c = '"' then "\\\""
  else if c = '\\' then "\\\\"
  else if c = '\n' then "\\n"
  else if c = '\t' then "\\t"
  else if c = '\r' then "\\r"
  else String.mk [c]

/-- Quote a string as a JSON string literal. -/
def quoteJ (s : String) : String :=
  "\"" ++ String.join (s.toList.map jsonEscapeChar) ++ "\""

mutual

/-- Model of `JSON.stringify(v, null, 2)` at current indentation `g`:
empty containers print as `[]` / `\x7b\x7d`, non-empty containers put every
item on its own line indented by `g + 2` spaces. -/
def stringifyVal : Json → Nat → String
  | .null, _ => "null"
  | .bool true, _ => "true"
  | .bool false, _ => "false"
  | .num n, _ => toString n
  | .str s, _ => quoteJ s
  | .arr [], _ => "[]"
  | .arr (x :: xs), g =>
      "[\n" ++ String.intercalate ",\n" (stringifyItems (x :: xs) (g + 2)) ++
        "\n" ++ indentStr g ++ "]"
  | .obj [], _ => "\x7b\x7d"
  | .obj (kv :: kvs), g =>
      "\x7b\n" ++ String.intercalate ",\n" (stringifyFields (kv :: kvs) (g + 2)) ++
        "\n" ++ indentStr g ++ "\x7d"

/-- Array items of `stringifyVal`, each already carrying its indentation. -/
def stringifyItems : List Json → Nat → List String
  | [], _ => []
  | x :: xs, g => (indentStr g ++ stringifyVal x g) :: stringifyItems xs g

/-- Object members of `stringifyVal`, each already carrying its
indentation. -/
def stringifyFields : List (String × Json) → Nat → List String
  | [], _ => []
  | (k, v) :: kvs, g => (indentStr g ++ quoteJ k ++ ": " ++ stringifyVal v g) :: stringifyFields kvs g

end

/-- Top-level `JSON.stringify(v, null, 2)`. -/
def stringify2 (v : Json) : String := stringifyVal v 0

/-- Whitespace recognised by the JSON grammar. -/
def isWsChar (c : Char) : Bool := c = ' ' || c = '\n' || c = '\t' || c = '\r'

/-- Drop leading JSON whitespace. -/
def skipWs : List Char → List Char
  | [] => []
  | c :: cs => if isWsChar c then skipWs cs else c :: cs

/-- ASCII decimal digit test. -/
def isDigitChar (c : Char) : Bool := '0' ≤ c && c ≤ '9'

/-- Numeric value of an ASCII digit. -/
def digitVal (c : Char) : Nat := c.toNat - '0'.toNat

/-- Split off a maximal run of leading digits. -/
def takeDigits : List Char → (List Char × List Char)
  | [] => ([], [])
  | c :: cs =>
      if isDigitChar c then
        let (ds, rest) := takeDigits cs
        (c :: ds, rest)
      else ([], c :: cs)

/-- Decimal value of a digit run. -/
def digitsToNat (ds : List Char) : Nat :=
  ds.foldl (fun acc c => acc * 10 + digitVal c) 0

/-- Decode one JSON string escape character. -/
def unescapeChar (e : Char) : Option Char :=
  match e with
  | '"' => some '"'
  | '\\' => some '\\'
  | '/' => some '/'
  | 'n' => some '\n'
  | 't' => some '\t'
  | 'r' => some '\r'
  | 'b' => some '\x08'
  | 'f' => some '\x0c'
  | _ => none

/-- Parse the body of a JSON string literal (after the opening quote) up to
the closing quote.  Unterminated strings and \u escapes are rejected. -/
def parseJString : List Char → Option (String × List Char)
  | [] => none
  | '"' :: cs => some ("", cs)
  | '\\' :: e :: cs =>
      match unescapeChar e, parseJString cs with
      | some c, some (s, rest) => some (String.mk (c :: s.toList), rest)
      | _, _ => none
  | c :: cs =>
      match parseJString cs with
      | some (s, rest) => some (String.mk (c :: s.toList), rest)
      | none => none

mutual

/-- Fuel-driven JSON value parser (the fuel strictly exceeds the input
length at the top-level entry `jparse`, so it never runs out on inputs the
parser accepts). -/
def parseJValue (fuel : Nat) (cs : List Char) : Option (Json × List Char) :=
  match fuel with
  | 0 => none
  | fuel + 1 =>
    match skipWs cs with
    | 'n' :: 'u' :: 'l' :: 'l' :: rest => some (.null, rest)
    | 't' :: 'r' :: 'u' :: 'e' :: rest => some (.bool true, rest)
    | 'f' :: 'a' :: 'l' :: 's' :: 'e' :: rest => some (.bool false, rest)
    | '"' :: rest => (parseJString rest).map fun (s, r) => (.str s, r)
    | '-' :: rest =>
        (match takeDigits rest with
         | ([], _) => none
         | (ds, r) => some (Json.num (-(digitsToNat ds : Int)), r))
    | '[' :: rest =>
        (match skipWs rest with
         | ']' :: r => some (.arr [], r)
         | _ => (parseJItems fuel rest).map fun (xs, r) => (.arr xs, r))
    | '\x7b' :: rest =>
        (match skipWs rest with
         | '\x7d' :: r => some (.obj [], r)
         | _ =>
           (parseJMembers fuel rest).map fun (kvs, r) =>
             (.obj (kvs.foldl (fun acc kv => insertKV acc kv.1 kv.2) []), r))
    | c :: rest =>
        if isDigitChar c then
          (match takeDigits (c :: rest) with
           | ([], _) => none
           | (ds, r) => some (Json.num (digitsToNat ds : Int), r))
        else none
    | [] => none

/-- Comma-separated array items, consuming the closing bracket. -/
def parseJItems (fuel : Nat) (cs : List Char) : Option (List Json × List Char) :=
  match fuel with
  | 0 => none
  | fuel + 1 =>
    (parseJValue fuel cs).bind fun (v, rest) =>
      match skipWs rest with
      | ',' :: r => (parseJItems fuel r).map fun (xs, r') => (v :: xs, r')
      | ']' :: r => some ([v], r)
      | _ => none

/-- Comma-separated object members in textual order, consuming the closing
brace (duplicate keys are collapsed by the caller with `insertKV`, matching
JavaScript's first-position / last-value rule). -/
def parseJMembers (fuel : Nat) (cs : List Char) : Option (List (String × Json) × List Char) :=
  match fuel with
  | 0 => none
  | fuel + 1 =>
    match skipWs cs with
    | '"' :: rest =>
        (parseJString rest).bind fun (k, r1) =>
          match skipWs r1 with
          | ':' :: r2 =>
              (parseJValue fuel r2).bind fun (v, r3) =>
                (match skipWs r3 with
                 | ',' :: r4 => (parseJMembers fuel r4).map fun (kvs, r5) => ((k, v) :: kvs, r5)
                 | '\x7d' :: r4 => some ([(k, v)], r4)
                 | _ => none)
          | _ => none
    | _ => none

end

/-- Model of `JSON.parse`, restricted to the value shapes of `Json`.
Returns `none` exactly when parsing fails (which the TypeScript code turns
into an exception caught by its caller). -/
def jparse (s : String) : Option Json :=
  (parseJValue (s.length + 1) s.toList).bind fun (v, rest) =>
    match skipWs rest with
    | [] => some v
    | _ => none

/-- Member access `j.k` as the TypeScript code uses it on parsed settings:
`some` the value when `j` is an object containing `k`, otherwise `none`
(JavaScript `undefined`). -/
def getMember (j : Json) (k : String) : Option Json :=
  match j with
  | .obj kvs => (kvs.find? (fun kv => kv.1 == k)).map Prod.snd
  | _ => none

/-- Property assignment `j.k = v`.  On a non-object it leaves the value
unchanged (the claims only exercise well-formed configurations, where this
case never occurs). -/
def setMember (j : Json) (k : String) (v : Json) : Json :=
  match j with
  | .obj kvs => .obj (insertKV kvs k v)
  | _ => j

/-- Model of `readSettings` (claude-wrapper.ts lines 41-44): read and parse
the settings file, treating a missing file or malformed content as the
empty object (the `catch` branch). -/
def readSettings (file : Option String) : Json :=
  match file with
  | none => .obj []
  | some content => (jparse content).getD (.obj [])

/-- Model of `writeSettings` (lines 46-49): the file afterwards holds
exactly `JSON.stringify(obj, null, 2)`. -/
def writeSettings (v : Json) : Option String := some (stringify2 v)

/-- Model of line 53, `JSON.parse(JSON.stringify(original))`.  On the `Json`
value type (which has no `undefined`, functions or non-finite numbers) the
JSON round trip is the identity; its purpose in the source is only to make
`updated` independent of `original`, which a functional model gets for
free. -/
def deepClone (j : Json) : Json := j

/-- Platform switch of `process.platform`: macOS, Windows, or anything else
(the code's `else` branch, Linux in practice). -/
inductive Platform where
  | darwin
  | win32
  | other
deriving DecidableEq, Repr

/-- The guard prepended to every injected hook command (lines 24 and 33):
compare the pid file's content against the invoking process's `$PPID` and
continue only on a match. -/
def ppidGuard (pidFile : String) : String :=
  "[ \"$(cat \x27" ++ pidFile ++ "\x27 2>/dev/null)\" = \"$PPID\" ] && "

/-- Platform-specific body of the play command (lines 26-29). -/
def spotifyPlayBody : Platform → String
  | .darwin => "osascript -e \x27tell application \"Spotify\" to play\x27"
  | .win32 => "powershell -command \"(New-Object -ComObject WMPlayer.OCX.7).controls.play()\""
  | .other => "dbus-send --print-reply --dest=org.mpris.MediaPlayer2.spotify /org/mpris/MediaPlayer2 org.mpris.MediaPlayer2.Player.Play"

/-- Platform-specific body of the pause command (lines 35-38). -/
def spotifyPauseBody : Platform → String
  | .darwin => "osascript -e \x27tell application \"Spotify\" to pause\x27"
  | .win32 => "powershell -command \"(New-Object -ComObject WMPlayer.OCX.7).controls.pause()\""
  | .other => "dbus-send --print-reply --dest=org.mpris.MediaPlayer2.spotify /org/mpris/MediaPlayer2 org.mpris.MediaPlayer2.Player.Pause"

/-- Model of `spotifyPlayCmd` (lines 23-30): the guard followed by the
platform's play command. -/
def spotifyPlayCmd (plat : Platform) (pidFile : String) : String :=
  ppidGuard pidFile ++ spotifyPlayBody plat

/-- Model of `spotifyPauseCmd` (lines 32-39). -/
def spotifyPauseCmd (plat : Platform) (pidFile : String) : String :=
  ppidGuard pidFile ++ spotifyPauseBody plat

/-- Output of `cat pidFile 2>/dev/null` inside the guard: the file content,
or the empty string when the file does not exist. -/
def catOut (content : Option String) : String := content.getD ""

/-- Shell semantics of the guard `[ "$(cat pidFile)" = "$PPID" ] && body`:
the body runs exactly when this returns `true`. -/
def guardAllows (content : Option String) (ppid : String) : Bool :=
  catOut content == ppid

/-- One injected hook group, tagged `_tuneIn: true`, holding a single
command-type hook (lines 58-61 and analogous). -/
def tuneInEntry (cmd : String) : Json :=
  .obj [("_tuneIn", .bool true),
        ("hooks", .arr [.obj [("type", .str "command"), ("command", .str cmd)]])]

/-- Model of the pair of statements
`updated.hooks.EVENT = updated.hooks.EVENT ?? []; updated.hooks.EVENT.push(entry)`
(lines 57-61, 66-70, 72-76).  Pushing onto a non-array value throws in
JavaScript and is left as the identity here; well-formed configurations
never reach that case. -/
def pushHook (j : Json) (event : String) (entry : Json) : Json :=
  let hooks := (getMember j "hooks").getD (.obj [])
  let lst := (getMember hooks event).getD (.arr [])
  let lst' := match lst with
              | .arr xs => Json.arr (xs ++ [entry])
              | nonArr => nonArr
  setMember j "hooks" (setMember hooks event lst')

/-- Model of `injectHooks` (lines 51-81): read the settings, deep-clone them
as the snapshot, ensure a `hooks` object, append the marked PreToolUse play
entry and (unless `noPause`) the Stop and Notification pause entries, write
the result, and return the untouched snapshot.  The first component is the
settings file content after the install, the second is the snapshot the
function returns. -/
def injectHooks (plat : Platform) (noPause : Bool) (pidFile : String)
    (file : Option String) : Option String × Json :=
  let original := readSettings file
  let updated := deepClone original
  let u0 := setMember updated "hooks" ((getMember updated "hooks").getD (.obj []))
  let u1 := pushHook u0 "PreToolUse" (tuneInEntry (spotifyPlayCmd plat pidFile))
  let u2 :=
    if noPause then u1
    else
      pushHook (pushHook u1 "Stop" (tuneInEntry (spotifyPauseCmd plat pidFile)))
        "Notification" (tuneInEntry (spotifyPauseCmd plat pidFile))
  (writeSettings u2, original)

/-- Model of `restoreHooks` (lines 83-85): overwrite the settings file with
the snapshot. -/
def restoreHooks (original : Json) : Option String := writeSettings original

/-- Install followed by restore with the snapshot install returned: the
settings file content at the end of this pipeline. -/
def installRestore (plat : Platform) (noPause : Bool) (pidFile : String)
    (file : Option String) : Option String :=
  restoreHooks (injectHooks plat noPause pidFile file).2

/-- `TYPING_PLAY_THRESHOLD` (claude-wrapper.ts line 17). -/
def TYPING_PLAY_THRESHOLD : Nat := 3

/-- `TYPING_IDLE_MS` (line 19). -/
def TYPING_IDLE_MS : Nat := 6000

/-- A playback intent issued to the backend (`playSpotifyNative` /
`pauseSpotifyNative` calls). -/
inductive Signal where
  | play
  | pause
deriving DecidableEq, Repr

/-- Per-session flags fixed before the input loop starts: `noPauseMode`
(line 89) and `spotifyAvailable` (lines 92-99). -/
structure EngCfg where
  noPauseMode : Bool
  spotifyAvailable : Bool
deriving DecidableEq, Repr

/-- State of the activity engine.  `firstMessageSent`, `charCount` and the
`typingTimer` variable mirror lines 152-154.  Armed, uncancelled timers are
tracked explicitly in `pending` as (id, absolute deadline in ms) pairs so
that "at most one timer is outstanding" is a provable property rather than
a modelling artifact; `typingTimer` holds the id of the handle stored in
the JavaScript variable (possibly already cancelled), `nextId` feeds fresh
ids.  `signals` is the ordered list of playback intents issued so far. -/
structure EngState where
  firstMessageSent : Bool
  charCount : Nat
  typingTimer : Option Nat
  pending : List (Nat × Nat)
  nextId : Nat
  signals : List Signal
deriving DecidableEq, Repr

/-- Playback intents issued during startup (lines 110-123): one immediate
play when Spotify is available, regardless of no-pause mode. -/
def initSignals (cfg : EngCfg) : List Signal :=
  if cfg.spotifyAvailable then [.play] else []

/-- The session state right after spawn: counters zero, no first message,
no timer, only the startup play issued. -/
def mkInit (cfg : EngCfg) : EngState :=
  { firstMessageSent := false, charCount := 0, typingTimer := none,
    pending := [], nextId := 0, signals := initSignals cfg }

/-- Test of line 194: the chunk contains a carriage return (0x0d) or line
feed (0x0a) byte. -/
def isSubmitChunk (bytes : List Nat) : Bool :=
  bytes.contains 0x0d || bytes.contains 0x0a

/-- Count of printable bytes in a chunk (line 206): `b >= 0x20 && b < 0x7f`,
i.e. 0x20 through 0x7e inclusive. -/
def printableCount (bytes : List Nat) : Nat :=
  (bytes.filter (fun b => decide (0x20 ≤ b ∧ b < 0x7f))).length

/-- Model of `onTypingPlay` (lines 167-170): in no-pause mode or without
Spotify, do nothing; otherwise issue a play intent. -/
def onTypingPlay (cfg : EngCfg) (s : EngState) : EngState :=
  if cfg.noPauseMode || !cfg.spotifyAvailable then s
  else { s with signals := s.signals ++ [.play] }

/-- Model of `scheduleTypingPause` (lines 172-180): cancel the timer held in
`typingTimer` (without nulling the variable — the source does not reassign
it before the early return), return early in no-pause mode or without
Spotify, otherwise arm a fresh timer due `TYPING_IDLE_MS` after `now` and
store its handle in `typingTimer`. -/
def scheduleTypingPause (cfg : EngCfg) (now : Nat) (s : EngState) : EngState :=
  let s1 := match s.typingTimer with
    | some i => { s with pending := s.pending.filter (fun p => p.1 != i) }
    | none => s
  if cfg.noPauseMode || !cfg.spotifyAvailable then s1
  else { s1 with typingTimer := some s1.nextId,
                 pending := s1.pending ++ [(s1.nextId, now + TYPING_IDLE_MS)],
                 nextId := s1.nextId + 1 }

/-- Model of the `process.stdin.on('data')` handler (lines 186-220) on one
chunk arriving at time `now`:

* a chunk containing CR or LF (line 194): set `firstMessageSent`, zero the
  counter, cancel and null the timer, and issue an immediate play when
  Spotify is available and no-pause mode is off, then return;
* before the first message (line 203): ignore the chunk;
* otherwise add the printable count (ignoring chunks with none), issue the
  typing play exactly when the counter lands on the threshold (line 212,
  `===`), and (re)arm the idle timer whenever the counter is at or above
  the threshold (line 217). -/
def handleChunk (cfg : EngCfg) (now : Nat) (bytes : List Nat) (s : EngState) : EngState :=
  if isSubmitChunk bytes then
    let s1 := { s with firstMessageSent := true, charCount := 0 }
    let s2 := match s1.typingTimer with
      | some i => { s1 with typingTimer := none,
                            pending := s1.pending.filter (fun p => p.1 != i) }
      | none => s1
    if cfg.spotifyAvailable && !cfg.noPauseMode then
      { s2 with signals := s2.signals ++ [.play] }
    else s2
  else if !s.firstMessageSent then s
  else
    let p := printableCount bytes
    if p = 0 then s
    else
      let s1 := { s with charCount := s.charCount + p }
      let s2 := if s1.charCount = TYPING_PLAY_THRESHOLD then onTypingPlay cfg s1 else s1
      if TYPING_PLAY_THRESHOLD ≤ s2.charCount then scheduleTypingPause cfg now s2 else s2

/-- Advance the clock to `now`, running the callback of every armed timer
whose deadline has passed (lines 175-179: null the variable, zero the
counter, issue a pause).  In every reachable state at most one timer is
armed, so at most one pause is issued here. -/
def advanceTo (now : Nat) (s : EngState) : EngState :=
  let due := s.pending.filter (fun p => decide (p.2 ≤ now))
  let rest := s.pending.filter (fun p => decide (now < p.2))
  due.foldl
    (fun acc _ =>
      { acc with typingTimer := none, charCount := 0, signals := acc.signals ++ [.pause] })
    { s with pending := rest }

/-- One input event: first let any timer whose deadline is at or before the
event's timestamp fire, then handle the chunk. -/
def stepEvent (cfg : EngCfg) (s : EngState) (ev : Nat × List Nat) : EngState :=
  handleChunk cfg ev.1 ev.2 (advanceTo ev.1 s)

/-- Run a whole session: start from `mkInit`, process the timestamped input
chunks in order, and finally advance the clock to `endTime`. -/
def runTrace (cfg : EngCfg) (evs : List (Nat × List Nat)) (endTime : Nat) : EngState :=
  advanceTo endTime (evs.foldl (stepEvent cfg) (mkInit cfg))

/-- Invariant tying the timer bookkeeping together: any armed timer is the
one whose handle is held in `typingTimer` and it is alone, and the held
handle's id is bounded by the id supply.  It holds in every reachable state
because each `setTimeout` in the source is preceded by a `clearTimeout` of
the stored handle. -/
def TimerInv (s : EngState) : Prop :=
  (∀ p ∈ s.pending, s.typingTimer = some p.1 ∧ s.pending = [p]) ∧
  (∀ i ∈ s.typingTimer, i < s.nextId)

instance (s : EngState) : Decidable (TimerInv s) :=
  inferInstanceAs (Decidable
    ((∀ p ∈ s.pending, s.typingTimer = some p.1 ∧ s.pending = [p]) ∧
     (∀ i ∈ s.typingTimer, i < s.nextId)))

/-- Wrapper-level configuration relevant to cleanup: whether Spotify was
available (fixed at startup, lines 92-99). -/
structure WrapCfg where
  spotifyAvailable : Bool
deriving DecidableEq, Repr

/-- Externally visible session resources that `cleanup` touches: the idle
timer, the pid file, the settings file, terminal raw mode, and whether a
final pause was forced. -/
structure SessState where
  timerArmed : Bool
  pidFile : Option String
  settingsFile : Option String
  rawModeOn : Bool
  paused : Bool
deriving DecidableEq, Repr

/-- Model of `cleanup` (lines 222-228): clear the timer, delete the pid
file (`unlinkSync` wrapped in a swallowing catch, so a second deletion is
harmless), leave raw mode, overwrite the settings file with the snapshot,
and force a pause when Spotify is available. -/
def cleanupStep (cfg : WrapCfg) (originalSettings : Json) (s : SessState) : SessState :=
  { timerArmed := false,
    pidFile := none,
    rawModeOn := false,
    settingsFile := restoreHooks originalSettings,
    paused := if cfg.spotifyAvailable then true else s.paused }

/-- The ways a session ends (lines 230-239).  `childExit` is the child
exiting on its own: `claude.onExit` runs `cleanup` once and exits.
`interrupt b` is SIGINT: the handler kills the child and awaits `cleanup`;
when Spotify is available that cleanup awaits `pauseSpotifyNative`, an
asynchronous `exec`, and during that await the event loop keeps running —
if the killed child's exit event is delivered in that window (`b = true`),
the `onExit` callback runs `cleanup` a second time before the process
exits.  Nothing in the source guards against this: `cleanup` has no
already-ran flag. -/
inductive ExitPath where
  | childExit
  | interrupt (childExitDeliveredDuringCleanup : Bool)
deriving DecidableEq, Repr

/-- Run an exit path from session state `s`; returns the final session
state and the number of times `cleanup` ran.  When Spotify is unavailable
the SIGINT cleanup performs no await (line 227 is skipped), so no event can
interleave and `onExit` never runs before `process.exit(130)`. -/
def runExitPath (cfg : WrapCfg) (originalSettings : Json) (s : SessState) :
    ExitPath → SessState × Nat
  | .childExit => (cleanupStep cfg originalSettings s, 1)
  | .interrupt b =>
      let s1 := cleanupStep cfg originalSettings s
      if b && cfg.spotifyAvailable then (cleanupStep cfg originalSettings s1, 2)
      else (s1, 1)

/-- Persisted token store of config.ts (`~/.tune-in/config.json`): access
token, refresh token, expiry timestamp in ms.  `none` models an absent
field. -/
structure Config where
  accessToken : Option String
  refreshToken : Option String
  expiresAt : Option Int
deriving DecidableEq, Repr

/-- The token endpoint's response used by `refreshAccessToken`:
`access_token` and `expires_in` (seconds). -/
structure TokenResponse where
  accessToken : String
  expiresIn : Int
deriving DecidableEq, Repr

/-- Model of `refreshAccessToken` (spotify.ts lines 51-76): fail without a
refresh token; otherwise store the response's access token and an expiry
`now + expires_in * 1000` and persist the updated config.  `now` is
`Date.now()`; the network call is modelled by the given response.  Returns
the new token and the persisted config. -/
def refreshAccessToken (cfg : Config) (now : Int) (resp : TokenResponse) :
    Except String (String × Config) :=
  match cfg.refreshToken with
  | none => .error "No refresh token available. Please run: tune-in auth"
  | some _ =>
      let cfg2 := { cfg with accessToken := some resp.accessToken,
                             expiresAt := some (now + resp.expiresIn * 1000) }
      .ok (resp.accessToken, cfg2)

/-- Model of `getValidAccessToken` (spotify.ts lines 78-91): fail when
either token is missing; refresh when the expiry is absent, zero (falsy in
`!config.expiresAt`), or less than 5 minutes past `now`; otherwise hand
back the stored access token, leaving the persisted config untouched.  The
second component of a successful result is the config store's content after
the call. -/
def getValidAccessToken (cfg : Config) (now : Int) (resp : TokenResponse) :
    Except String (String × Config) :=
  match cfg.accessToken, cfg.refreshToken with
  | some tok, some _ =>
      if (match cfg.expiresAt with
          | none => true
          | some e => e == 0 || decide (e < now + 5 * 60 * 1000)) then
        refreshAccessToken cfg now resp
      else .ok (tok, cfg)
  | _, _ => .error "Not authenticated. Please run: tune-in auth"

/-- Result of the `osascript` invocation inside `getCurrentTrack`: captured
stdout, or a thrown error. -/
inductive ExecOut where
  | ok (stdout : String)
  | err
deriving DecidableEq, Repr

/-- Whitespace trimmed by JavaScript's `String.prototype.trim` (restricted
to the characters that can occur in AppleScript output). -/
def isTrimWs (c : Char) : Bool := c = ' ' || c = '\n' || c = '\t' || c = '\r'

/-- Model of `.trim()`: drop whitespace from both ends. -/
def trimChars (cs : List Char) : List Char :=
  ((cs.dropWhile isTrimWs).reverse.dropWhile isTrimWs).reverse

/-- The separator `" — "` (space, em dash, space) the AppleScript output is
split on.  Every character involved is a single UTF-16 code unit, so
character indices below agree with JavaScript string indices. -/
def trackSep : List Char := [' ', '—', ' ']

/-- Index of the first occurrence of `trackSep`, i.e. `indexOf(' — ')`. -/
def findSepIdx : List Char → Option Nat
  | [] => none
  | c :: cs =>
      if trackSep.isPrefixOf (c :: cs) then some 0
      else (findSepIdx cs).map (· + 1)

/-- Model of `getCurrentTrack` (spotify-native.ts lines 111-127): only on
macOS does it run the AppleScript at all; a thrown error is swallowed and
every non-returning path ends in `null` (`none`).  On macOS the trimmed
stdout is split at the first `" — "` into name and artist; without the
separator the result is `null`. -/
def getCurrentTrack (plat : Platform) (res : ExecOut) : Option (String × String) :=
  match plat, res with
  | .darwin, .ok out =>
      match findSepIdx (trimChars out.toList) with
      | some i =>
          some (String.mk ((trimChars out.toList).take i),
                String.mk ((trimChars out.toList).drop (i + 3)))
      | none => none
  | .darwin, .err => none
  | _, _ => none

/-- A concrete session configuration: pauses enabled, Spotify available. -/
def sampleCfg : EngCfg := { noPauseMode := false, spotifyAvailable := true }

/-- A concrete mid-session engine state: first message sent, the counter at
the threshold, one armed idle timer with id 0 due at t = 6000. -/
def sampleTimerState : EngState :=
  { firstMessageSent := true, charCount := 3, typingTimer := some 0,
    pending := [(0, 6000)], nextId := 1, signals := [.play] }

/-- A concrete wrapper session state before cleanup. -/
def sampleSessState : SessState :=
  { timerArmed := true, pidFile := some "12345", settingsFile := some "\x7b\x7d",
    rawModeOn := true, paused := false }

/-- A concrete authenticated token store whose token expires at t = 1000000. -/
def sampleTokenCfg : Config :=
  { accessToken := some "OLD", refreshToken := some "REFRESH", expiresAt := some 1000000 }

/-- A concrete token-endpoint response. -/
def sampleTokenResp : TokenResponse := { accessToken := "NEW", expiresIn := 3600 }

/-- C8: every injected hook command string is the PPID guard followed by the
platform's playback command, the guard executes its body only when the pid
file's content equals the invoking process's `$PPID`, and in particular a
guard reading a pid file holding session A's identifier blocks an invoker
whose parent identifier is a different session B's. -/
theorem c8_guarded_commands (plat : Platform) (pidFile sidA ppidB : String)
    (hne : sidA ≠ ppidB) :
    spotifyPlayCmd plat pidFile = ppidGuard pidFile ++ spotifyPlayBody plat ∧
    spotifyPauseCmd plat pidFile = ppidGuard pidFile ++ spotifyPauseBody plat ∧
    (∀ content ppid, guardAllows content ppid = true → catOut content = ppid) ∧
    guardAllows (some sidA) ppidB = false := by
  refine ⟨rfl, rfl, ?_, ?_⟩
  · intro content ppid h
    simpa [guardAllows] using h
  · simp [guardAllows, catOut, hne]

/-- Witness for C8 at concrete session identifiers "11111" and "22222". -/
theorem c8_guarded_commands_witness :
    spotifyPlayCmd .darwin "/tmp/tune-in-claude.pid" =
      ppidGuard "/tmp/tune-in-claude.pid" ++ spotifyPlayBody .darwin ∧
    spotifyPauseCmd .darwin "/tmp/tune-in-claude.pid" =
      ppidGuard "/tmp/tune-in-claude.pid" ++ spotifyPauseBody .darwin ∧
    (∀ content ppid, guardAllows content ppid = true → catOut content = ppid) ∧
    guardAllows (some "11111") "22222" = false :=
  c8_guarded_commands .darwin "/tmp/tune-in-claude.pid" "11111" "22222" (by decide)

/-- C9: with both tokens present, a playback call refreshes exactly when the
stored expiry is absent (or falsy) or less than 5 minutes after `now`, and
then returns and persists the response token with expiry
`now + expires_in * 1000`; otherwise it returns the stored access token and
leaves the persisted config unchanged. -/
theorem c9_token_refresh (cfg : Config) (now : Int) (resp : TokenResponse)
    (tok rtok : String) (hA : cfg.accessToken = some tok)
    (hR : cfg.refreshToken = some rtok) :
    ((cfg.expiresAt = none ∨
        ∃ e, cfg.expiresAt = some e ∧ (e = 0 ∨ e < now + 5 * 60 * 1000)) →
      getValidAccessToken cfg now resp =
        .ok (resp.accessToken,
             { cfg with accessToken := some resp.accessToken,
                        expiresAt := some (now + resp.expiresIn * 1000) })) ∧
    (∀ e, cfg.expiresAt = some e → e ≠ 0 → ¬(e < now + 5 * 60 * 1000) →
      getValidAccessToken cfg now resp = .ok (tok, cfg)) := by
  constructor
  · intro hfresh
    rcases hfresh with hnone | ⟨e, he, hc⟩
    · simp [getValidAccessToken, hA, hR, hnone, refreshAccessToken]
    · have hcb : (e == 0 || decide (e < now + 300000)) = true := by
        rcases hc with h0 | hlt
        · simp [h0]
        · have hlt' : e < now + 300000 := by omega
          simp [hlt']
      simp [getValidAccessToken, hA, hR, he, hcb, refreshAccessToken]
  · intro e he h0 hge
    have hnlt : ¬ e < now + 300000 := by omega
    have hcb : (e == 0 || decide (e < now + 300000)) = false := by
      simp [h0, hnlt]
    simp [getValidAccessToken, hA, hR, he, hcb]

/-- Witness for C9: at `now = 900000` the sample config (expiry 1000000,
i.e. less than 5 minutes ahead) refreshes and persists the new token. -/
theorem c9_token_refresh_witness :
    getValidAccessToken sampleTokenCfg 900000 sampleTokenResp =
      .ok (sampleTokenResp.accessToken,
           { sampleTokenCfg with
               accessToken := some sampleTokenResp.accessToken,
               expiresAt := some (900000 + sampleTokenResp.expiresIn * 1000) }) :=
  (c9_token_refresh sampleTokenCfg 900000 sampleTokenResp "OLD" "REFRESH" rfl rfl).1
    (Or.inr ⟨1000000, rfl, Or.inr (by norm_num)⟩)

/-- C10: `getCurrentTrack` returns `null` on every platform other than
macOS for every execution outcome (it never even runs the AppleScript);
on macOS it returns `null` whenever the player's trimmed output lacks the
`" — "` separator, and a thrown error also yields `null`. -/
theorem c10_current_track (plat : Platform) (res : ExecOut) (out : String)
    (hplat : plat ≠ .darwin) (hsep : findSepIdx (trimChars out.toList) = none) :
    getCurrentTrack plat res = none ∧
    getCurrentTrack .darwin (.ok out) = none ∧
    getCurrentTrack .darwin .err = none := by
  refine ⟨?_, ?_, rfl⟩
  · cases plat <;> cases res <;> first | rfl | exact absurd rfl hplat
  · simp only [getCurrentTrack]
    rw [hsep]

/-- Witness for C10: on Linux with a playing track the result is still
`null`, and on macOS an output without the separator yields `null`. -/
theorem c10_current_track_witness :
    getCurrentTrack .other (.ok "Song — Artist") = none ∧
    getCurrentTrack .darwin (.ok "no separator here") = none ∧
    getCurrentTrack .darwin .err = none :=
  c10_current_track .other (.ok "Song — Artist") "no separator here"
    (by decide) (by decide)

/-- C1 counterexample: with Spotify available, a SIGINT whose killed child's
exit event is delivered while the handler's `cleanup` awaits the pause call
runs `cleanup` twice in one session — not exactly once.  The source has no
guard flag in `cleanup` (lines 222-228) and both `claude.onExit` (230-233)
and the SIGINT handler (235-239) call it unconditionally. -/
theorem c1_cleanup_twice_on_interrupt :
    (runExitPath ⟨true⟩ (Json.obj []) sampleSessState (.interrupt true)).2 ≠ 1 := by
  decide

/-- C1 as amended: on every exit path `cleanup` runs at least once and at
most twice, and because its effect is idempotent the final session state is
the same on every path — timer cancelled, pid file deleted, raw mode off,
hook configuration restored from the snapshot, playback paused when Spotify
is available. -/
theorem c1_cleanup_at_least_once_idempotent (cfg : WrapCfg) (original : Json)
    (s : SessState) (path : ExitPath) :
    1 ≤ (runExitPath cfg original s path).2 ∧
    (runExitPath cfg original s path).2 ≤ 2 ∧
    (runExitPath cfg original s path).1 = cleanupStep cfg original s ∧
    cleanupStep cfg original (cleanupStep cfg original s) = cleanupStep cfg original s := by
  have idem : cleanupStep cfg original (cleanupStep cfg original s) =
      cleanupStep cfg original s := by
    by_cases h : cfg.spotifyAvailable <;> simp [cleanupStep, h]
  rcases path with _ | b
  · exact ⟨by simp [runExitPath], by simp [runExitPath], rfl, idem⟩
  · by_cases hb : (b && cfg.spotifyAvailable) = true
    · exact ⟨by simp [runExitPath, hb], by simp [runExitPath, hb],
        by simp [runExitPath, hb, idem], idem⟩
    · exact ⟨by simp [runExitPath, hb], by simp [runExitPath, hb],
        by simp [runExitPath, hb], idem⟩

/-- C2 counterexample: the well-formed starting configuration `"\x7b \x7d"`
(an empty object with interior whitespace) comes back from install+restore
as the canonical `"\x7b\x7d"` — JSON-equal but not byte-for-byte equal. -/
theorem c2_restore_not_byte_equal :
    installRestore .other false "/tmp/tune-in-claude.pid" (some "\x7b \x7d") ≠
      some "\x7b \x7d" := by
  decide

/-- C2 as amended: install followed by restore rewrites the settings file
with `JSON.stringify(snapshot, null, 2)` where the snapshot is exactly the
parsed pre-install content — the stored JSON value is preserved verbatim,
and the bytes are preserved precisely when the pre-install file was already
in that canonical 2-space serialization. -/
theorem c2_restore_writes_canonical (plat : Platform) (noPause : Bool)
    (pidFile : String) (content : String) (v : Json)
    (h : jparse content = some v) :
    installRestore plat noPause pidFile (some content) = some (stringify2 v) ∧
    (content = stringify2 v →
      installRestore plat noPause pidFile (some content) = some content) := by
  have key : installRestore plat noPause pidFile (some content) = some (stringify2 v) := by
    show restoreHooks (readSettings (some content)) = some (stringify2 v)
    simp [readSettings, h, restoreHooks, writeSettings]
  exact ⟨key, fun hc => by rw [key, hc]⟩

/-- Witness for C2 at the canonical content `"\x7b\x7d"`, on which the bytes
round-trip exactly. -/
theorem c2_restore_writes_canonical_witness :
    installRestore .other false "/tmp/tune-in-claude.pid" (some "\x7b\x7d") =
      some (stringify2 (Json.obj [])) ∧
    ("\x7b\x7d" = stringify2 (Json.obj []) →
      installRestore .other false "/tmp/tune-in-claude.pid" (some "\x7b\x7d") =
        some "\x7b\x7d") :=
  c2_restore_writes_canonical .other false "/tmp/tune-in-claude.pid" "\x7b\x7d"
    (Json.obj []) (by rfl)

/-- C3 at its failing input: after the first submission, a single chunk
carrying the four printable bytes "abcd" drives the counter from 0 to 4 —
past the threshold — yet issues no play signal, because line 212 tests
`charCount === 3` and the counter never equals 3.  The signals after the
paste are exactly the startup play and the submission play, contradicting
the claim (and the source's own comment "Once threshold is reached, play
music"). -/
theorem c3_pasted_chunk_gets_no_play :
    (stepEvent sampleCfg (stepEvent sampleCfg (mkInit sampleCfg) (0, [0x0d]))
        (100, [0x61, 0x62, 0x63, 0x64])).charCount = 4 ∧
    (stepEvent sampleCfg (stepEvent sampleCfg (mkInit sampleCfg) (0, [0x0d]))
        (100, [0x61, 0x62, 0x63, 0x64])).signals = [Signal.play, Signal.play] ∧
    TYPING_PLAY_THRESHOLD ≤ 4 := by
  decide

/-- C4: a chunk containing a carriage return or line feed marks the first
interaction, zeroes the printable counter, cancels any pending idle timer,
and — with Spotify available — issues an immediate play exactly when
no-pause mode is off, all within the handler itself (no external hook is
involved). -/
theorem c4_submit_chunk (cfg : EngCfg) (now : Nat) (bytes : List Nat) (s : EngState)
    (hsub : isSubmitChunk bytes = true) (hsp : cfg.spotifyAvailable = true) :
    (handleChunk cfg now bytes s).firstMessageSent = true ∧
    (handleChunk cfg now bytes s).charCount = 0 ∧
    (handleChunk cfg now bytes s).typingTimer = none ∧
    (∀ i d, s.typingTimer = some i → (i, d) ∉ (handleChunk cfg now bytes s).pending) ∧
    (cfg.noPauseMode = false →
      (handleChunk cfg now bytes s).signals = s.signals ++ [Signal.play]) ∧
    (cfg.noPauseMode = true → (handleChunk cfg now bytes s).signals = s.signals) := by
  refine ⟨?_, ?_, ?_, ?_, ?_, ?_⟩ <;>
    cases hT : s.typingTimer <;>
      by_cases hnp : cfg.noPauseMode <;>
        simp [handleChunk, hsub, hsp, hT, hnp, List.mem_filter] <;>
          (intro i d hi _; exact hi.symm)

/-- C5: with the idle timer armed (deadline `d`), letting the clock pass `d`
with no further input fires exactly one pause and zeroes the counter, while
a qualifying chunk (printable content, no CR/LF) arriving strictly before
`d` cancels that timer without any pause firing.  The freshness hypothesis
`i < s.nextId` holds in every reachable state (`TimerInv`). -/
theorem c5_idle_timer (cfg : EngCfg) (s : EngState) (i d now : Nat) (bytes : List Nat)
    (hT : s.typingTimer = some i) (hP : s.pending = [(i, d)]) :
    (d ≤ now →
      (advanceTo now s).signals = s.signals ++ [Signal.pause] ∧
      (advanceTo now s).charCount = 0 ∧
      (advanceTo now s).typingTimer = none ∧
      (advanceTo now s).pending = []) ∧
    (now < d → isSubmitChunk bytes = false → 0 < printableCount bytes →
      s.firstMessageSent = true → TYPING_PLAY_THRESHOLD ≤ s.charCount →
      i < s.nextId →
      (stepEvent cfg s (now, bytes)).signals = s.signals ∧
      (∀ d2, (i, d2) ∉ (stepEvent cfg s (now, bytes)).pending)) := by
  constructor
  · intro hdue
    have hnlt : ¬ now < d := by omega
    have hres : advanceTo now s =
        { s with typingTimer := none, charCount := 0, pending := [],
                 signals := s.signals ++ [Signal.pause] } := by
      simp [advanceTo, hP, hdue, hnlt]
    rw [hres]
    exact ⟨rfl, rfl, rfl, rfl⟩
  · intro hlt hnsub hpr hfirst hth hfresh
    have hnd : ¬ d ≤ now := by omega
    have hadv : advanceTo now s = s := by
      simp [advanceTo, hP, hnd, hlt]
      rw [← hP]
    have hne3 : ¬ s.charCount + printableCount bytes = TYPING_PLAY_THRESHOLD := by
      simp only [TYPING_PLAY_THRESHOLD] at *
      omega
    have hge3 : TYPING_PLAY_THRESHOLD ≤ s.charCount + printableCount bytes := by
      simp only [TYPING_PLAY_THRESHOLD] at *
      omega
    have hp0 : ¬ printableCount bytes = 0 := by omega
    constructor
    · by_cases hf : (cfg.noPauseMode || !cfg.spotifyAvailable) = true <;>
        simp [stepEvent, hadv, handleChunk, hnsub, hfirst, hp0, hne3, hge3,
              scheduleTypingPause, hT, hP, hf]
    · intro d2
      by_cases hf : (cfg.noPauseMode || !cfg.spotifyAvailable) = true <;>
        simp [stepEvent, hadv, handleChunk, hnsub, hfirst, hp0, hne3, hge3,
              scheduleTypingPause, hT, hP, hf] <;>
        omega

/-- Witness for C5 on the sample armed-timer state: advancing to the 6000 ms
deadline fires the one pause, and a printable chunk at 100 ms leaves the
signals unchanged. -/
theorem c5_idle_timer_witness :
    (advanceTo 6000 sampleTimerState).signals = sampleTimerState.signals ++ [Signal.pause] ∧
    (stepEvent sampleCfg sampleTimerState (100, [0x61])).signals = sampleTimerState.signals := by
  constructor
  · exact ((c5_idle_timer sampleCfg sampleTimerState 0 6000 6000 [0x61] rfl rfl).1
      (by omega)).1
  · exact ((c5_idle_timer sampleCfg sampleTimerState 0 6000 100 [0x61] rfl rfl).2
      (by omega) (by decide) (by decide) rfl (by decide) (by decide)).1

/-- In a state satisfying `TimerInv` the timer bookkeeping has exactly two
shapes: no armed timer, or a single armed timer matching `typingTimer`. -/
theorem timerInv_cases {s : EngState} (h : TimerInv s) :
    s.pending = [] ∨
      ∃ i d, s.typingTimer = some i ∧ s.pending = [(i, d)] ∧ i < s.nextId := by
  cases hp : s.pending with
  | nil => exact Or.inl rfl
  | cons p rest =>
      have hmem : p ∈ s.pending := by
        rw [hp]
        exact List.mem_cons_self p rest
      obtain ⟨hT, hsing⟩ := h.1 p hmem
      have hfresh : p.1 < s.nextId := h.2 p.1 (Option.mem_iff.mpr hT)
      exact Or.inr ⟨p.1, p.2, hT, by rw [← hp, hsing], hfresh⟩

/-- Without a stored timer handle no timer is armed (under `TimerInv`). -/
theorem timerInv_pending_nil {s : EngState} (h : TimerInv s)
    (hT : s.typingTimer = none) : s.pending = [] := by
  rcases timerInv_cases h with hp | ⟨i, d, hT2, _, _⟩
  · exact hp
  · rw [hT] at hT2
    cases hT2

/-- Under `TimerInv`, `scheduleTypingPause` reduces to: cancel whatever was
armed, then either stop (no-pause mode or no Spotify) or arm one fresh
timer. -/
theorem scheduleTypingPause_eq (cfg : EngCfg) (now : Nat) {s : EngState}
    (h : TimerInv s) :
    scheduleTypingPause cfg now s =
      if cfg.noPauseMode || !cfg.spotifyAvailable then { s with pending := [] }
      else { s with typingTimer := some s.nextId,
                    pending := [(s.nextId, now + TYPING_IDLE_MS)],
                    nextId := s.nextId + 1 } := by
  obtain ⟨fms, cc, tt, pd, nid, sg⟩ := s
  rcases timerInv_cases h with hp | ⟨i, d, hT, hp, hfresh⟩
  · simp only at hp
    subst hp
    cases tt <;>
      by_cases hf : (cfg.noPauseMode || !cfg.spotifyAvailable) = true <;>
        simp [scheduleTypingPause, hf]
  · simp only at hp hT
    subst hp
    subst hT
    by_cases hf : (cfg.noPauseMode || !cfg.spotifyAvailable) = true <;>
      simp [scheduleTypingPause, hf]

/-- `scheduleTypingPause` preserves `TimerInv`. -/
theorem timerInv_schedule (cfg : EngCfg) (now : Nat) {s : EngState}
    (h : TimerInv s) : TimerInv (scheduleTypingPause cfg now s) := by
  rw [scheduleTypingPause_eq cfg now h]
  by_cases hf : (cfg.noPauseMode || !cfg.spotifyAvailable) = true
  · rw [if_pos hf]
    exact ⟨by simp, fun i hi => h.2 i hi⟩
  · rw [if_neg hf]
    exact ⟨by simp, by simp⟩

/-- `advanceTo` preserves `TimerInv`. -/
theorem timerInv_advanceTo (now : Nat) {s : EngState} (h : TimerInv s) :
    TimerInv (advanceTo now s) := by
  rcases timerInv_cases h with hp | ⟨i, d, hT, hp, hfresh⟩
  · have he : advanceTo now s = { s with pending := [] } := by
      simp [advanceTo, hp]
    rw [he]
    exact ⟨by simp, fun i hi => h.2 i hi⟩
  · by_cases hdue : d ≤ now
    · have hnlt : ¬ now < d := by omega
      have he : advanceTo now s =
          { s with typingTimer := none, charCount := 0, pending := [],
                   signals := s.signals ++ [Signal.pause] } := by
        simp [advanceTo, hp, hdue, hnlt]
      rw [he]
      exact ⟨by simp, by simp⟩
    · have hlt : now < d := by omega
      have he : advanceTo now s = s := by
        simp [advanceTo, hp, hdue, hlt]
        rw [← hp]
      rw [he]
      exact h

/-- `handleChunk` preserves `TimerInv`. -/
theorem timerInv_handleChunk (cfg : EngCfg) (now : Nat) (bytes : List Nat)
    {s : EngState} (h : TimerInv s) : TimerInv (handleChunk cfg now bytes s) := by
  by_cases hsub : isSubmitChunk bytes = true
  · rcases timerInv_cases h with hp | ⟨i, d, hT, hp, hfresh⟩
    · cases hT : s.typingTimer <;>
        by_cases hplay : (cfg.spotifyAvailable && !cfg.noPauseMode) = true <;>
          simp [handleChunk, hsub, hT, hplay, TimerInv, hp]
    · by_cases hplay : (cfg.spotifyAvailable && !cfg.noPauseMode) = true <;>
        simp [handleChunk, hsub, hT, hplay, TimerInv, hp]
  · cases hf : s.firstMessageSent
    · simpa [handleChunk, hsub, hf] using h
    · by_cases hp0 : printableCount bytes = 0
      · simpa [handleChunk, hsub, hf, hp0] using h
      · have base : TimerInv { s with charCount := s.charCount + printableCount bytes } :=
          ⟨fun p hp => h.1 p hp, fun i hi => h.2 i hi⟩
        have played : TimerInv { s with charCount := s.charCount + printableCount bytes,
                                        signals := s.signals ++ [Signal.play] } :=
          ⟨fun p hp => h.1 p hp, fun i hi => h.2 i hi⟩
        by_cases h3 : s.charCount + printableCount bytes = TYPING_PLAY_THRESHOLD <;>
          by_cases hfl : (cfg.noPauseMode || !cfg.spotifyAvailable) = true <;>
            by_cases hge : TYPING_PLAY_THRESHOLD ≤ s.charCount + printableCount bytes <;>
              simp [handleChunk, hsub, hf, hp0, h3, hfl, hge, onTypingPlay] <;>
                first
                  | exact base
                  | exact played
                  | exact timerInv_schedule cfg now base
                  | exact timerInv_schedule cfg now played
                  | (exfalso; simp [TYPING_PLAY_THRESHOLD] at h3 hge; omega)

/-- One input event preserves `TimerInv`. -/
theorem timerInv_stepEvent (cfg : EngCfg) (ev : Nat × List Nat) {s : EngState}
    (h : TimerInv s) : TimerInv (stepEvent cfg s ev) :=
  timerInv_handleChunk cfg ev.1 ev.2 (timerInv_advanceTo ev.1 h)

/-- The initial state satisfies `TimerInv`. -/
theorem timerInv_mkInit (cfg : EngCfg) : TimerInv (mkInit cfg) := by
  exact ⟨by simp [mkInit], by simp [mkInit]⟩

/-- Processing any list of events preserves `TimerInv`. -/
theorem timerInv_foldl (cfg : EngCfg) (evs : List (Nat × List Nat)) {s : EngState}
    (h : TimerInv s) : TimerInv (evs.foldl (stepEvent cfg) s) := by
  induction evs generalizing s with
  | nil => exact h
  | cons e rest ih => exact ih (timerInv_stepEvent cfg e h)

/-- Every state reached by a whole session run satisfies `TimerInv`. -/
theorem timerInv_runTrace (cfg : EngCfg) (evs : List (Nat × List Nat))
    (endTime : Nat) : TimerInv (runTrace cfg evs endTime) :=
  timerInv_advanceTo endTime (timerInv_foldl cfg evs (timerInv_mkInit cfg))

/-- `TimerInv` bounds the number of armed timers by one. -/
theorem pending_length_le_one {s : EngState} (h : TimerInv s) :
    s.pending.length ≤ 1 := by
  rcases timerInv_cases h with hp | ⟨i, d, _, hp, _⟩ <;> simp [hp]

/-- C6: at every point of a session run at most one idle timer is
outstanding; rescheduling (`scheduleTypingPause`) always removes the
previously pending timer; and a submission chunk cancels the pending timer
outright. -/
theorem c6_single_outstanding_timer (cfg : EngCfg) (evs : List (Nat × List Nat))
    (endTime : Nat) (s : EngState) (now : Nat) (i : Nat) (bytes : List Nat)
    (hInv : TimerInv s) (hT : s.typingTimer = some i) :
    (runTrace cfg evs endTime).pending.length ≤ 1 ∧
    (∀ d2, (i, d2) ∉ (scheduleTypingPause cfg now s).pending) ∧
    (isSubmitChunk bytes = true →
      (handleChunk cfg now bytes s).typingTimer = none ∧
      (handleChunk cfg now bytes s).pending = []) := by
  have hfresh : i < s.nextId := hInv.2 i (Option.mem_iff.mpr hT)
  refine ⟨pending_length_le_one (timerInv_runTrace cfg evs endTime), ?_, ?_⟩
  · intro d2
    rw [scheduleTypingPause_eq cfg now hInv]
    by_cases hf : (cfg.noPauseMode || !cfg.spotifyAvailable) = true
    · rw [if_pos hf]
      simp
    · rw [if_neg hf]
      simp
      omega
  · intro hsub
    rcases timerInv_cases hInv with hp | ⟨j, d, hTj, hp, _⟩
    · by_cases hplay : (cfg.spotifyAvailable && !cfg.noPauseMode) = true <;>
        simp [handleChunk, hsub, hT, hplay, hp]
    · have hji : j = i := Option.some.inj (hTj.symm.trans hT)
      subst hji
      simp only [handleChunk, hsub, if_true]
      simp [hT, hp]
      split <;> exact ⟨rfl, rfl⟩

/-- Witness for C6 on the sample armed-timer state. -/
theorem c6_single_outstanding_timer_witness :
    (runTrace sampleCfg [] 0).pending.length ≤ 1 ∧
    (∀ d2, (0, d2) ∉ (scheduleTypingPause sampleCfg 100 sampleTimerState).pending) ∧
    (isSubmitChunk [13] = true →
      (handleChunk sampleCfg 100 [13] sampleTimerState).typingTimer = none ∧
      (handleChunk sampleCfg 100 [13] sampleTimerState).pending = []) :=
  c6_single_outstanding_timer sampleCfg [] 0 sampleTimerState 100 0 [13]
    (by decide) (by decide)

/-- With no armed timer, advancing the clock does nothing. -/
theorem advanceTo_of_nil (now : Nat) {s : EngState} (hp : s.pending = []) :
    advanceTo now s = s := by
  simp [advanceTo, hp]
  rw [← hp]

/-- In no-pause mode the input handler never changes the emitted signals and
never arms a timer: the submission play is gated on `!noPauseMode` (line
198), `onTypingPlay` returns early (line 168), and `scheduleTypingPause`
returns before `setTimeout` (line 174). -/
theorem noPause_handleChunk (cfg : EngCfg) (hnp : cfg.noPauseMode = true)
    (now : Nat) (bytes : List Nat) {s : EngState} (hp : s.pending = []) :
    (handleChunk cfg now bytes s).signals = s.signals ∧
    (handleChunk cfg now bytes s).pending = [] := by
  by_cases hsub : isSubmitChunk bytes = true
  · cases hT : s.typingTimer <;> simp [handleChunk, hsub, hT, hnp, hp]
  · cases hf : s.firstMessageSent
    · simp [handleChunk, hsub, hf, hp]
    · by_cases hp0 : printableCount bytes = 0
      · simp [handleChunk, hsub, hf, hp0, hp]
      · by_cases h3 : s.charCount + printableCount bytes = TYPING_PLAY_THRESHOLD <;>
          by_cases hge : TYPING_PLAY_THRESHOLD ≤ s.charCount + printableCount bytes <;>
            cases hT : s.typingTimer <;>
              simp [handleChunk, hsub, hf, hp0, h3, hge, hT, hnp, hp,
                onTypingPlay, scheduleTypingPause]

/-- In no-pause mode one input event leaves the signals unchanged and keeps
the timer set empty. -/
theorem noPause_stepEvent (cfg : EngCfg) (hnp : cfg.noPauseMode = true)
    (ev : Nat × List Nat) {s : EngState} (hp : s.pending = []) :
    (stepEvent cfg s ev).signals = s.signals ∧ (stepEvent cfg s ev).pending = [] := by
  have hadv := advanceTo_of_nil ev.1 hp
  have h := noPause_handleChunk cfg hnp ev.1 ev.2 (s := s) hp
  constructor
  · rw [stepEvent, hadv]
    exact h.1
  · rw [stepEvent, hadv]
    exact h.2

/-- C7 counterexample: in no-pause mode (with Spotify available) a
submission chunk adds no play signal — the signals after the carriage
return are exactly the startup signals, because line 198 guards the
submission play with `!noPauseMode`.  This refutes the claim's "the
immediate play signal … on every submission still occurs". -/
theorem c7_no_submission_play_in_no_pause :
    (handleChunk ⟨true, true⟩ 0 [0x0d] (mkInit ⟨true, true⟩)).signals =
      (mkInit ⟨true, true⟩).signals := by
  decide

/-- C7 as amended: in no-pause mode the engine emits no signal at all after
launch — no pause ever (idle timers are never armed), and also no play on
submission or typing; only the startup play (when Spotify is available)
occurs. -/
theorem c7_no_pause_mode_engine (b : Bool) (evs : List (Nat × List Nat))
    (endTime : Nat) :
    (runTrace ⟨true, b⟩ evs endTime).signals = initSignals ⟨true, b⟩ ∧
    Signal.pause ∉ (runTrace ⟨true, b⟩ evs endTime).signals ∧
    (b = true → initSignals ⟨true, b⟩ = [Signal.play]) := by
  have main : ∀ (evs2 : List (Nat × List Nat)) (s : EngState), s.pending = [] →
      (evs2.foldl (stepEvent ⟨true, b⟩) s).signals = s.signals ∧
      (evs2.foldl (stepEvent ⟨true, b⟩) s).pending = [] := by
    intro evs2
    induction evs2 with
    | nil => exact fun s hp => ⟨rfl, hp⟩
    | cons e rest ih =>
        intro s hp
        have h1 := noPause_stepEvent ⟨true, b⟩ rfl e hp
        have h2 := ih (stepEvent ⟨true, b⟩ s e) h1.2
        exact ⟨h2.1.trans h1.1, h2.2⟩
  have hfold := main evs (mkInit ⟨true, b⟩) rfl
  have hend := advanceTo_of_nil endTime hfold.2
  have hsig : (runTrace ⟨true, b⟩ evs endTime).signals = initSignals ⟨true, b⟩ := by
    rw [runTrace, hend, hfold.1]
    rfl
  refine ⟨hsig, ?_, fun hb => by simp [initSignals, hb]⟩
  rw [hsig]
  cases b <;> simp [initSignals]

/-- Witness for C7 on a concrete no-pause session with a submission and a
typing burst. -/
theorem c7_no_pause_mode_engine_witness :
    (runTrace ⟨true, true⟩ [(0, [13]), (1, [97, 98, 99])] 10000).signals =
      initSignals ⟨true, true⟩ ∧
    Signal.pause ∉ (runTrace ⟨true, true⟩ [(0, [13]), (1, [97, 98, 99])] 10000).signals ∧
    initSignals ⟨true, true⟩ = [Signal.play] := by
  have h := c7_no_pause_mode_engine true [(0, [13]), (1, [97, 98, 99])] 10000
  exact ⟨h.1, h.2.1, h.2.2 rfl⟩

/-- Witness for C4: a carriage-return chunk on the sample mid-session state
marks the first interaction, zeroes the counter, clears the timer, and
issues the immediate play. -/
theorem c4_submit_chunk_witness :
    (handleChunk sampleCfg 0 [13] sampleTimerState).firstMessageSent = true ∧
    (handleChunk sampleCfg 0 [13] sampleTimerState).charCount = 0 ∧
    (handleChunk sampleCfg 0 [13] sampleTimerState).typingTimer = none ∧
    (handleChunk sampleCfg 0 [13] sampleTimerState).signals =
      sampleTimerState.signals ++ [Signal.play] := by
  have h := c4_submit_chunk sampleCfg 0 [13] sampleTimerState (by decide) (by decide)
  exact ⟨h.1, h.2.1, h.2.2.1, h.2.2.2.2.1 rfl⟩
